import Mathlib

/-!
Shallow embedding of the `zy-mcp` repository (an MCP video-analysis
client/server pair) and proofs about its claims.

Part 1: the Orchestrator's argument-resolution helpers from
`src/mcp-client/client.py`:

* `extract_video_path` (lines 58-71): `re.search` with a strict pattern
  `([a-zA-Z]:[\\/][^<>:"|?*\n\r]*\.(?:mp4|avi|mov|mkv|flv))` (IGNORECASE),
  falling back to a looser pattern
  `([a-zA-Z]:\\.*?\.(?:mp4|avi|mov|mkv|flv))` (IGNORECASE), else `None`.
* `extract_text_question` (lines 73-85): an IGNORECASE `re.sub` of the strict
  pattern is computed and then immediately overwritten by a case-sensitive
  `re.sub` of the same pattern; the result is stripped, and a fixed default
  question is returned when nothing remains.

The regular expressions are embedded directly, with Python `re` semantics
for these specific patterns: leftmost search position wins, `*` is greedy
(backtracking, longest first), `*?` is lazy (shortest first).
-/

namespace ZyMcp

/-- A character matches a lowercase-letter-or-digit pattern literal under
`re.IGNORECASE` (ASCII case folding): either exactly, or as the uppercase
form of a lowercase ASCII letter. -/
def mlc (c : Char) (p : Char) : Bool :=
  c = p || (97 ≤ p.toNat && p.toNat ≤ 122 && c.toNat + 32 = p.toNat)

/-- `[a-zA-Z]`: an ASCII letter (the drive-letter class). -/
def isAsciiLetter (c : Char) : Bool :=
  (('a' ≤ c) && (c ≤ 'z')) || (('A' ≤ c) && (c ≤ 'Z'))

/-- The strict pattern's character class `[^<>:"|?*\n\r]`. -/
def clsChar (c : Char) : Bool :=
  !(c = '<' || c = '>' || c = ':' || c = '\"' || c = '|' || c = '?' ||
    c = '*' || c = '\n' || c = '\r')

/-- Three characters spell one of the video extensions
`mp4|avi|mov|mkv|flv`, matched case-insensitively. -/
def extTripleCI (a b c : Char) : Bool :=
  (mlc a 'm' && mlc b 'p' && c = '4') ||
  (mlc a 'a' && mlc b 'v' && mlc c 'i') ||
  (mlc a 'm' && mlc b 'o' && mlc c 'v') ||
  (mlc a 'm' && mlc b 'k' && mlc c 'v') ||
  (mlc a 'f' && mlc b 'l' && mlc c 'v')

/-- Three characters spell one of the video extensions, case-sensitively
(`re.sub` in `extract_text_question` is effectively applied without
IGNORECASE, see below). -/
def extTripleCS (a b c : Char) : Bool :=
  (a = 'm' && b = 'p' && c = '4') ||
  (a = 'a' && b = 'v' && c = 'i') ||
  (a = 'm' && b = 'o' && c = 'v') ||
  (a = 'm' && b = 'k' && c = 'v') ||
  (a = 'f' && b = 'l' && c = 'v')

/-- Matching `\.(?:mp4|avi|mov|mkv|flv)` (IGNORECASE) at the head of the
input: returns the four consumed characters. -/
def extAtCI : List Char → Option (List Char)
  | '.' :: a :: b :: c :: _ =>
    if extTripleCI a b c then some ['.', a, b, c] else none
  | _ => none

/-- Matching `\.(?:mp4|avi|mov|mkv|flv)` (case-sensitive) at the head of
the input: returns the four consumed characters. -/
def extAtCS : List Char → Option (List Char)
  | '.' :: a :: b :: c :: _ =>
    if extTripleCS a b c then some ['.', a, b, c] else none
  | _ => none

/-- `cls*` (greedy) followed by an extension matcher `ext`, at the head of
the input.  Greedy backtracking: prefer consuming a class character (and
hence the longest star) over matching the extension at the current
position.  Returns the full consumed text. -/
def starThenExt (ext : List Char → Option (List Char)) (cls : Char → Bool) :
    List Char → Option (List Char)
  | [] => ext []
  | c :: rest =>
    match (if cls c then (starThenExt ext cls rest).map (fun m => c :: m) else none) with
    | some m => some m
    | none => ext (c :: rest)

/-- `.*?` (lazy, `.` excludes `\n`) followed by an extension matcher, at the
head of the input.  Lazy: prefer matching the extension at the current
position over consuming a character. -/
def lazyThenExt (ext : List Char → Option (List Char)) :
    List Char → Option (List Char)
  | [] => ext []
  | c :: rest =>
    match ext (c :: rest) with
    | some m => some m
    | none =>
      if c = '\n' then none
      else (lazyThenExt ext rest).map (fun m => c :: m)

/-- The strict pattern `[a-zA-Z]:[\\/][^<>:"|?*\n\r]*\.(?:ext)` anchored at
the head of the input, parameterized by the extension matcher (IGNORECASE
or case-sensitive). -/
def strictAtGen (ext : List Char → Option (List Char)) :
    List Char → Option (List Char)
  | a :: b :: c :: rest =>
    if isAsciiLetter a && b = ':' && (c = '\\' || c = '/') then
      (starThenExt ext clsChar rest).map (fun m => a :: b :: c :: m)
    else none
  | _ => none

/-- The strict pattern with IGNORECASE, as used in `extract_video_path`. -/
def strictAtCI : List Char → Option (List Char) := strictAtGen extAtCI

/-- The strict pattern matched case-sensitively, the effective behavior of
the second `re.sub` in `extract_text_question`. -/
def strictAtCS : List Char → Option (List Char) := strictAtGen extAtCS

/-- The fallback pattern `[a-zA-Z]:\\.*?\.(?:ext)` (IGNORECASE) anchored at
the head of the input (only a backslash separator, lazy star). -/
def simpleAt : List Char → Option (List Char)
  | a :: b :: c :: rest =>
    if isAsciiLetter a && b = ':' && c = '\\' then
      (lazyThenExt extAtCI rest).map (fun m => a :: b :: c :: m)
    else none
  | _ => none

/-- `re.search`: try the anchored matcher at each start position from the
left; the first position with a match wins.  (Both patterns require at
least six characters, so the empty suffix never matches.) -/
def reSearch (matchAt : List Char → Option (List Char)) :
    List Char → Option (List Char)
  | [] => none
  | c :: rest =>
    match matchAt (c :: rest) with
    | some m => some m
    | none => reSearch matchAt rest

/-- `MCPClient.extract_video_path` (client.py lines 58-71): strict pattern
first, fallback pattern second, `None` when neither matches. -/
def extract_video_path (query : String) : Option String :=
  match reSearch strictAtCI query.toList with
  | some m => some (String.mk m)
  | none =>
    match reSearch simpleAt query.toList with
    | some m => some (String.mk m)
    | none => none

/-- Python whitespace for `str.strip()`. -/
def isPySpace (c : Char) : Bool :=
  c = ' ' || c = '\t' || c = '\n' || c = '\r' || c = '\x0b' || c = '\x0c'

/-- Python `str.strip()`. -/
def pyStrip (s : List Char) : List Char :=
  ((s.dropWhile isPySpace).reverse.dropWhile isPySpace).reverse

/-- One fueled pass of `re.sub(pattern, '', s)` for an anchored matcher:
replace each leftmost, non-overlapping match with the empty string and
continue after it.  The fuel is an upper bound on the number of steps; every
step consumes at least one character, so fuel `s.length` is exact. -/
def subAllF (matchAt : List Char → Option (List Char)) :
    Nat → List Char → List Char
  | 0, s => s
  | _ + 1, [] => []
  | fuel + 1, c :: rest =>
    match matchAt (c :: rest) with
    | some m => subAllF matchAt fuel ((c :: rest).drop m.length)
    | none => c :: subAllF matchAt fuel rest

/-- `re.sub(pattern, '', s)` for an anchored matcher. -/
def subAll (matchAt : List Char → Option (List Char)) (s : List Char) : List Char :=
  subAllF matchAt s.length s

/-- The fixed default question (client.py line 83). -/
def defaultQuestion : String := "这段视频的内容是什么？"

/-- `MCPClient.extract_text_question` (client.py lines 73-85).  The first
substitution (IGNORECASE) is computed and discarded — line 79 overwrites
`text_question` with a case-sensitive substitution of the same pattern —
so the effective behavior removes only case-sensitive strict-pattern
matches.  If nothing remains after stripping, the fixed default question
is returned. -/
def extract_text_question (query : String) : String :=
  let _discarded := pyStrip (subAll (strictAtGen extAtCI) query.toList)
  let text_question := pyStrip (subAll strictAtCS query.toList)
  if text_question.isEmpty then defaultQuestion else String.mk text_question

/-!
Part 2: the Tool Host from `src/mcp-client/server.py`.

Python dictionaries returned to the caller are embedded as association
lists of JSON-like values; a raised Python exception is an `Except.error`.
A video file is abstracted as what OpenCV reports about it: whether
`cv2.VideoCapture(path).isOpened()`, the `CAP_PROP` metadata, and the
ordered list of frames `cap.read()` yields before the first failed read.
Pixel values are naturals; a frame is a row-major matrix of BGR triples.
Floats are modelled as rationals (no claim depends on rounding).
-/

/-- A JSON-like Python value (dict/list/str/number/bool/None). -/
inductive JVal where
  | jnum (q : ℚ)
  | jstr (s : String)
  | jbool (b : Bool)
  | jnull
  | jarr (xs : List JVal)
  | jobj (fields : List (String × JVal))

/-- A Python dict with string keys, as returned by the tools. -/
abbrev JObj := List (String × JVal)

/-- Python `dict.get(k)` / `dict.get(k, d)`: first value bound to `k`,
else the default. -/
def jget (o : JObj) (k : String) (d : JVal) : JVal :=
  match o.find? (fun p => p.1 = k) with
  | some p => p.2
  | none => d

/-- Does the payload dictionary contain the given key? -/
def hasKey (o : JObj) (k : String) : Bool :=
  o.any (fun p => p.1 = k)

/-- A raised Python exception, as relevant to this program. -/
inductive PyErr where
  | zeroDivision
  | jsonDecode (s : String)
  | typeErrorNonePath
  | fileOpen (p : String)
  | indexError
deriving DecidableEq

/-- One BGR pixel (blue, green, red). -/
abbrev Pix := ℕ × ℕ × ℕ

/-- One decoded video frame: a list of rows of BGR pixels. -/
abbrev Frame := List (List Pix)

/-- What OpenCV reports about a video file: open success, the `CAP_PROP`
metadata, and the frames successfully read in order (the read loop stops
at the first failed `cap.read()`). -/
structure Video where
  openable : Bool
  fps : ℚ
  frameCount : ℤ
  width : ℤ
  height : ℤ
  frames : List Frame

/-- Outcome of one Tool Host operation: the returned payload (or raised
exception), and whether `cap.release()` was executed. -/
structure HostOutcome where
  result : Except PyErr JObj
  released : Bool

/-- The structured error payload both tools return when the capture cannot
be opened (server.py lines 43 and 79). -/
def openErrorPayload : JObj := [("error", JVal.jstr "无法打开视频文件")]

/-- Total number of pixels in a frame. -/
def pixCount (f : Frame) : ℕ := (f.map List.length).sum

/-- Per-channel sums of a frame's pixels (B, G, R). -/
def channelSums (f : Frame) : ℕ × ℕ × ℕ :=
  f.foldl
    (fun acc row =>
      row.foldl (fun a p => (a.1 + p.1, a.2.1 + p.2.1, a.2.2 + p.2.2)) acc)
    (0, 0, 0)

/-- `np.mean(frame, axis=(0,1)).tolist()` (server.py line 59): the
per-channel mean colour of a frame.  `np.mean` of an empty frame is NaN,
modelled as `jnull`. -/
def frameMean (f : Frame) : JVal :=
  if pixCount f = 0 then JVal.jnull
  else
    let s := channelSums f
    JVal.jarr [JVal.jnum ((s.1 : ℚ) / pixCount f),
               JVal.jnum ((s.2.1 : ℚ) / pixCount f),
               JVal.jnum ((s.2.2 : ℚ) / pixCount f)]

/-- The successful payload of `video_inference_model`
(server.py lines 64-69). -/
def infSuccessPayload (v : Video) : JObj :=
  [("fps", JVal.jnum v.fps),
   ("frame_count", JVal.jnum (v.frameCount : ℚ)),
   ("duration", JVal.jnum ((v.frameCount : ℚ) / v.fps)),
   ("color_analysis", JVal.jarr (v.frames.map frameMean))]

/-- `video_inference_model` (server.py lines 34-69).  The open check
returns the error payload without touching `release`.  The duration
`frame_count / fps` is computed BEFORE the `try/finally` that guards the
read loop, so a reported fps of 0 raises `ZeroDivisionError` with
`cap.release()` never executed.  Otherwise the loop reads every available
frame, the `finally` releases the handle, and the payload is returned. -/
def video_inference_model (v : Video) : HostOutcome :=
  if v.openable = false then ⟨Except.ok openErrorPayload, false⟩
  else if v.fps = 0 then ⟨Except.error PyErr.zeroDivision, false⟩
  else ⟨Except.ok (infSuccessPayload v), true⟩

/-- OpenCV's fixed-point BGR-to-luma conversion used by
`cv2.cvtColor(..., COLOR_BGR2GRAY)`:
`(R*4899 + G*9617 + B*1868 + 8192) >> 14`. -/
def grayPix (p : Pix) : ℕ :=
  (4899 * p.2.2 + 9617 * p.2.1 + 1868 * p.1 + 8192) / 16384

/-- `cv2.cvtColor(frame, COLOR_BGR2GRAY)` (server.py line 100). -/
def grayFrame (f : Frame) : List (List ℕ) := f.map (fun row => row.map grayPix)

/-- One pixel of `cv2.threshold(gray, threshold, 255, THRESH_BINARY)`
(server.py line 103): 255 where the source pixel exceeds the threshold,
0 elsewhere. -/
def binPix (t : ℤ) (p : ℕ) : ℕ := if (p : ℤ) > t then 255 else 0

/-- The binarized frame. -/
def binFrame (t : ℤ) (g : List (List ℕ)) : List (List ℕ) :=
  g.map (fun row => row.map (binPix t))

/-- `np.sum(m == n)`: how many entries of a matrix equal `n`. -/
def count2 (n : ℕ) (m : List (List ℕ)) : ℕ :=
  (m.map (fun row => row.count n)).sum

/-- The white-pixel count recorded for one frame (server.py line 106). -/
def whiteCount1 (t : ℤ) (f : Frame) : ℕ := count2 255 (binFrame t (grayFrame f))

/-- The black-pixel count recorded for one frame (server.py line 107). -/
def blackCount1 (t : ℤ) (f : Frame) : ℕ := count2 0 (binFrame t (grayFrame f))

/-- `float(np.mean(gray_frame))` (server.py line 108); NaN on an empty
frame, modelled as `jnull`. -/
def brightness1 (f : Frame) : JVal :=
  if pixCount f = 0 then JVal.jnull
  else JVal.jnum (((grayFrame f).map List.sum).sum / (pixCount f : ℚ))

/-- The `white_pixel_counts` list accumulated over the read frames. -/
def whiteCounts (v : Video) (t : ℤ) : List ℕ := v.frames.map (whiteCount1 t)

/-- The `black_pixel_counts` list accumulated over the read frames. -/
def blackCounts (v : Video) (t : ℤ) : List ℕ := v.frames.map (blackCount1 t)

/-- The `frame_brightness` list accumulated over the read frames. -/
def brightnessList (v : Video) : List JVal := v.frames.map brightness1

/-- The `binary_statistics` dictionary (server.py lines 87-91, filled by
the loop at lines 94-114). -/
def binaryStatistics (v : Video) (t : ℤ) : JVal :=
  JVal.jobj
    [("white_pixel_counts", JVal.jarr ((whiteCounts v t).map (fun n => JVal.jnum n))),
     ("black_pixel_counts", JVal.jarr ((blackCounts v t).map (fun n => JVal.jnum n))),
     ("frame_brightness", JVal.jarr (brightnessList v))]

/-- The successful payload of `video_binarization`
(server.py lines 119-127). -/
def binSuccessPayload (v : Video) (t : ℤ) : JObj :=
  [("fps", JVal.jnum v.fps),
   ("frame_count", JVal.jnum (v.frameCount : ℚ)),
   ("duration", JVal.jnum ((v.frameCount : ℚ) / v.fps)),
   ("resolution", JVal.jstr (toString v.width ++ "x" ++ toString v.height)),
   ("binary_statistics", binaryStatistics v t),
   ("success", JVal.jbool true),
   ("note", JVal.jstr "二值化处理完成，未保存到本地文件")]

/-- `video_binarization` (server.py lines 71-127).  Same structure as the
inference operation: failed open returns the error payload (no release);
`duration = frame_count / fps` is computed before the `try/finally`, so
fps 0 raises `ZeroDivisionError` without releasing; otherwise the loop
processes every frame, releases, and the payload is returned. -/
def video_binarization (v : Video) (threshold : ℤ) : HostOutcome :=
  if v.openable = false then ⟨Except.ok openErrorPayload, false⟩
  else if v.fps = 0 then ⟨Except.error PyErr.zeroDivision, false⟩
  else ⟨Except.ok (binSuccessPayload v threshold), true⟩

/-- The published tool `inference_video` (server.py lines 133-143) just
delegates to `video_inference_model`. -/
def inference_video (v : Video) : HostOutcome := video_inference_model v

/-- The published tool `process_video_binarization` (server.py lines
144-153) just delegates to `video_binarization`; the schema default for
`threshold` is 127. -/
def process_video_binarization (v : Video) (threshold : ℤ) : HostOutcome :=
  video_binarization v threshold

/-!
Part 3: the Orchestrator's query cycle, `MCPClient.process_query`
(client.py lines 88-177) and `MCPClient.chat_loop` (lines 180-194).

External collaborators are oracles supplied in an `Env`: the Model
Gateway's first response (`choice`), `json.loads` (`jsonLoads`), the MCP
`session.call_tool` channel (`callTool`), the filesystem read in
`encode_image` (`readFile`), base64 encoding (`b64encode`), and the Model
Gateway's second response as a function of the augmented conversation
(`secondAnswer`).  An interactive session is a list of (environment, raw
input) pairs, one per query, since each query draws fresh responses from
the external collaborators.
-/

/-- One tool call in the gateway's response: `tool_calls[0]` with its id,
function name and JSON-encoded argument string. -/
structure ToolCallMsg where
  id : String
  name : String
  arguments : String
deriving DecidableEq

/-- `response.choices[0]`: either a direct answer (any finish reason other
than `"tool_calls"`) or a tool-call decision. -/
inductive Choice where
  | direct (text : String)
  | toolCalls (tc : ToolCallMsg)

/-- One turn of the conversation assembled inside `process_query`. -/
inductive Msg where
  | user (text : String)
  | userMedia (b64video : String) (text : String)
  | assistantToolCall (tc : ToolCallMsg)
  | tool (content : String) (toolCallId : String)

/-- A `session.call_tool` reply: the `.text` of each content item. -/
structure ToolReply where
  content : List String

/-- The external collaborators of one query cycle. -/
structure Env where
  choice : Choice
  jsonLoads : String → Except PyErr JObj
  callTool : String → JObj → ToolReply
  readFile : String → Except PyErr String
  b64encode : String → String
  secondAnswer : List Msg → String

/-- Observable outcome of `process_query`: the returned answer or the
exception that escaped, the ordered `session.call_tool` invocations made,
whether the second Model Gateway call was reached, and the conversation
passed to the first Model Gateway call. -/
structure ProcResult where
  result : Except PyErr String
  calls : List (String × JObj)
  secondGatewayCalled : Bool
  firstGatewayMessages : List Msg

/-- `MCPClient.encode_image` (client.py lines 53-55): `open(path, "rb")`
raises a `TypeError` when the path is `None`, propagates the filesystem
error otherwise, and base64-encodes the bytes on success. -/
def encode_image (env : Env) (path : Option String) : Except PyErr String :=
  match path with
  | none => Except.error PyErr.typeErrorNonePath
  | some p => (env.readFile p).map env.b64encode

/-- Rendering of a Python value inside an f-string (`str()`).  Only the
human-readable summary strings use this; no claim depends on the exact
rendering, so compounds are abbreviated. -/
def jvalStr : JVal → String
  | JVal.jnum q => toString q
  | JVal.jstr s => s
  | JVal.jbool b => if b then "True" else "False"
  | JVal.jnull => "None"
  | JVal.jarr _ => "[...]"
  | JVal.jobj _ => "{...}"

/-- The summary line built for the inference tool (client.py line 124). -/
def infInfoLine (params : JObj) : String :=
  "视频信息：FPS=" ++ jvalStr (jget params "fps" JVal.jnull) ++
  ", 时长=" ++ jvalStr (jget params "duration" JVal.jnull) ++
  "秒, 总帧数=" ++ jvalStr (jget params "frame_count" JVal.jnull)

/-- The summary line built for the binarization tool
(client.py line 147). -/
def binInfoLine (params : JObj) : String :=
  "视频信息：FPS=" ++ jvalStr (jget params "fps" JVal.jnull) ++
  ", 时长=" ++ jvalStr (jget params "duration" JVal.jnull) ++
  "秒,总帧数=" ++ jvalStr (jget params "frame_count" JVal.jnull) ++
  ",分辨率=" ++ jvalStr (jget params "resolution" JVal.jnull)

/-- Client.py lines 160-175, shared by every selected tool after the
optional name-specific enrichment: the generic
`call_tool(tool_name, tool_args)` replay, the assistant tool-call turn,
the tool-result turn holding `result.content[0].text` (an unguarded index:
an empty reply raises `IndexError`), and the second Model Gateway call. -/
def genericTail (env : Env) (tc : ToolCallMsg) (toolArgs : JObj)
    (messages : List Msg) (calls : List (String × JObj)) (msgs0 : List Msg) :
    ProcResult :=
  let reply := env.callTool tc.name toolArgs
  let calls := calls ++ [(tc.name, toolArgs)]
  match reply.content with
  | [] => ⟨Except.error PyErr.indexError, calls, false, msgs0⟩
  | t :: _ =>
    let messages := messages ++ [Msg.assistantToolCall tc, Msg.tool t tc.id]
    ⟨Except.ok (env.secondAnswer messages), calls, true, msgs0⟩

/-- `MCPClient.process_query` (client.py lines 88-177).  The conversation
starts from scratch with the single user turn.  On a tool-call decision
the argument string is parsed (a parse failure escapes to the caller).
The two known tool names get an enrichment branch: question and path are
re-extracted from the raw query, the file is base64-encoded
(`encode_image(None)` raises before any tool call when no path was found),
a hard-coded `call_tool` runs with the resolved path, its first content
item is parsed, and an enriched user turn is appended.  The source's two
sequential `if` tests on `tool_name` are exclusive because the names
differ, so they are embedded as `if`/`else if`.  Every path then reaches
the generic tail above. -/
def process_query (env : Env) (query : String) : ProcResult :=
  let msgs0 : List Msg := [Msg.user query]
  match env.choice with
  | Choice.direct text => ⟨Except.ok text, [], false, msgs0⟩
  | Choice.toolCalls tc =>
    match env.jsonLoads tc.arguments with
    | Except.error e => ⟨Except.error e, [], false, msgs0⟩
    | Except.ok toolArgs =>
      if tc.name = "inference_video" then
        let text_question := extract_text_question query
        let video_path := extract_video_path query
        match video_path with
        | none => ⟨Except.error PyErr.typeErrorNonePath, [], false, msgs0⟩
        | some vp =>
          match encode_image env (some vp) with
          | Except.error e => ⟨Except.error e, [], false, msgs0⟩
          | Except.ok baseVideo =>
            let callArgs : JObj := [("path", JVal.jstr vp)]
            let reply := env.callTool "inference_video" callArgs
            let parsed : Except PyErr JObj :=
              match reply.content with
              | [] => Except.ok []
              | t :: _ => env.jsonLoads t
            match parsed with
            | Except.error e =>
              ⟨Except.error e, [("inference_video", callArgs)], false, msgs0⟩
            | Except.ok vparams =>
              let msgs := msgs0 ++
                [Msg.userMedia baseVideo (text_question ++ "\n" ++ infInfoLine vparams)]
              genericTail env tc toolArgs msgs [("inference_video", callArgs)] msgs0
      else if tc.name = "process_video_binarization" then
        let text_question := extract_text_question query
        let video_path := extract_video_path query
        let threshold := jget toolArgs "threshold" (JVal.jnum 127)
        match video_path with
        | none => ⟨Except.error PyErr.typeErrorNonePath, [], false, msgs0⟩
        | some vp =>
          match encode_image env (some vp) with
          | Except.error e => ⟨Except.error e, [], false, msgs0⟩
          | Except.ok baseVideo =>
            let callArgs : JObj := [("path", JVal.jstr vp), ("threshold", threshold)]
            let reply := env.callTool "process_video_binarization" callArgs
            let parsed : Except PyErr JObj :=
              match reply.content with
              | [] => Except.ok []
              | t :: _ => env.jsonLoads t
            match parsed with
            | Except.error e =>
              ⟨Except.error e, [("process_video_binarization", callArgs)], false, msgs0⟩
            | Except.ok bparams =>
              let msgs := msgs0 ++
                [Msg.userMedia baseVideo (text_question ++ "\n" ++ binInfoLine bparams)]
              genericTail env tc toolArgs msgs
                [("process_video_binarization", callArgs)] msgs0
      else
        genericTail env tc toolArgs msgs0 [] msgs0

/-- ASCII lowering of one character, for `str.lower()` on the `quit`
check. -/
def lowc (c : Char) : Char :=
  if 65 ≤ c.toNat && c.toNat ≤ 90 then Char.ofNat (c.toNat + 32) else c

/-- `str.lower()` (ASCII fragment; the quit check only compares against
`"quit"`). -/
def pyLower (s : String) : String := String.mk (s.toList.map lowc)

/-- Rendering of a caught exception (`str(e)`); the exact text is
irrelevant to the claims. -/
def errStr : PyErr → String
  | PyErr.zeroDivision => "division by zero"
  | PyErr.jsonDecode s => "Expecting value: " ++ s
  | PyErr.typeErrorNonePath =>
    "expected str, bytes or os.PathLike object, not NoneType"
  | PyErr.fileOpen p => "No such file or directory: " ++ p
  | PyErr.indexError => "list index out of range"

/-- The line printed for one query by `chat_loop` (client.py lines
190-194): either the answer or the single diagnostic line from the
`except` handler. -/
def reportLine (env : Env) (q : String) : String :=
  match (process_query env q).result with
  | Except.ok ans => "🤖 OpenAI: " ++ ans
  | Except.error e => "⚠️ 发生错误: " ++ errStr e

/-- `MCPClient.chat_loop` (client.py lines 180-194): strip each raw input,
stop on `quit`, otherwise run one full query cycle inside `try/except` and
print one line; no state flows between iterations. -/
def chat_loop : List (Env × String) → List String
  | [] => []
  | (env, raw) :: rest =>
    let q := String.mk (pyStrip raw.toList)
    if pyLower q = "quit" then []
    else reportLine env q :: chat_loop rest

/-!
Part 4: the well-formed-path predicate and lemmas about the pattern
matchers.  A well-formed video path, in the sense of the spec ("a
well-formed drive-letter path ending in a supported video extension",
where the stricter pattern "excludes characters illegal in paths"), is a
string of the exact shape of the strict pattern: drive letter, colon,
separator, legal-path characters, dot, extension (case-insensitive).
-/

/-- Exactly a dot followed by one of the five extensions
(case-insensitive): the legal tail of a well-formed path. -/
def extFull (l : List Char) : Bool :=
  match l with
  | ['.', a, b, c] => extTripleCI a b c
  | _ => false

/-- A well-formed drive-letter video path, following the spec's words. -/
def isWellFormedPath (p : List Char) : Bool :=
  match p with
  | a :: b :: c :: rest =>
    isAsciiLetter a && b = ':' && (c = '\\' || c = '/') &&
    decide (4 ≤ rest.length) &&
    (rest.take (rest.length - 4)).all clsChar &&
    extFull (rest.drop (rest.length - 4))
  | _ => false

/-- Some prefix of the input is a well-formed path. -/
def hasWFAt (s : List Char) : Bool :=
  (List.range (s.length + 1)).any (fun n => isWellFormedPath (s.take n))

/-- Some substring of the input is a well-formed path. -/
def containsWF (s : List Char) : Bool :=
  (List.range (s.length + 1)).any (fun i => hasWFAt (s.drop i))

theorem containsWF_exists {s : List Char} (h : containsWF s = true) :
    ∃ i n, isWellFormedPath ((s.drop i).take n) = true := by
  unfold containsWF at h
  rw [List.any_eq_true] at h
  obtain ⟨i, _, h⟩ := h
  unfold hasWFAt at h
  rw [List.any_eq_true] at h
  obtain ⟨n, _, h⟩ := h
  exact ⟨i, n, h⟩

theorem extAtCI_shape {l e : List Char} (h : extAtCI l = some e) :
    ∃ a b c t, l = '.' :: a :: b :: c :: t ∧ e = ['.', a, b, c] ∧
      extTripleCI a b c = true := by
  unfold extAtCI at h
  split at h
  · rename_i a b c t
    split at h
    · rename_i htri
      exact ⟨a, b, c, t, rfl, (Option.some.injEq _ _).mp h |>.symm, htri⟩
    · cases h
  · cases h

theorem extAtCI_of_triple {a b c : Char} (t : List Char)
    (h : extTripleCI a b c = true) :
    extAtCI ('.' :: a :: b :: c :: t) = some ['.', a, b, c] := by
  simp [extAtCI, h]

theorem extFull_shape {l : List Char} (h : extFull l = true) :
    ∃ a b c, l = ['.', a, b, c] ∧ extTripleCI a b c = true := by
  unfold extFull at h
  split at h
  · rename_i a b c
    exact ⟨a, b, c, rfl, h⟩
  · cases h

theorem starThenExt_isSome_of_ext {ext : List Char → Option (List Char)}
    {cls : Char → Bool} {s : List Char} (h : (ext s).isSome = true) :
    (starThenExt ext cls s).isSome = true := by
  cases s with
  | nil => simpa [starThenExt] using h
  | cons c rest =>
    unfold starThenExt
    split
    · simp
    · simpa using h

theorem starThenExt_append {ext : List Char → Option (List Char)}
    {cls : Char → Bool} :
    ∀ (u rest : List Char), u.all cls = true → (ext rest).isSome = true →
      (starThenExt ext cls (u ++ rest)).isSome = true := by
  intro u
  induction u with
  | nil => intro rest _ h; simpa using starThenExt_isSome_of_ext h
  | cons a u' ih =>
    intro rest hall h
    obtain ⟨ha, hu⟩ : cls a = true ∧ u'.all cls = true := by simpa using hall
    have hrec := ih rest hu h
    show (starThenExt ext cls (a :: (u' ++ rest))).isSome = true
    unfold starThenExt
    rw [ha]
    cases hx : starThenExt ext cls (u' ++ rest) with
    | none => rw [hx] at hrec; cases hrec
    | some m => simp [hx]

theorem starThenExt_shape {ext : List Char → Option (List Char)}
    {cls : Char → Bool} :
    ∀ {rest m : List Char}, starThenExt ext cls rest = some m →
      ∃ u etail e, rest = u ++ etail ∧ m = u ++ e ∧ u.all cls = true ∧
        ext etail = some e := by
  intro rest
  induction rest with
  | nil =>
    intro m h
    exact ⟨[], [], m, rfl, rfl, rfl, by simpa [starThenExt] using h⟩
  | cons c r ih =>
    intro m h
    unfold starThenExt at h
    cases hcls : cls c with
    | false =>
      rw [hcls] at h
      simp at h
      exact ⟨[], c :: r, m, rfl, rfl, rfl, h⟩
    | true =>
      rw [hcls] at h
      cases hrec : starThenExt ext cls r with
      | some m' =>
        rw [hrec] at h
        simp at h
        subst h
        obtain ⟨u, etail, e, h1, h2, h3, h4⟩ := ih hrec
        exact ⟨c :: u, etail, e, by simp [h1], by simp [h2], by simp [hcls, h3], h4⟩
      | none =>
        rw [hrec] at h
        simp at h
        exact ⟨[], c :: r, m, rfl, rfl, rfl, h⟩

theorem strictAtGen_shape {ext : List Char → Option (List Char)}
    {s m : List Char} (h : strictAtGen ext s = some m) :
    ∃ a b c rest m', s = a :: b :: c :: rest ∧
      (isAsciiLetter a && b = ':' && (c = '\\' || c = '/')) = true ∧
      starThenExt ext clsChar rest = some m' ∧ m = a :: b :: c :: m' := by
  unfold strictAtGen at h
  split at h
  · rename_i a b c rest
    split at h
    · rename_i hcond
      rw [Option.map_eq_some'] at h
      obtain ⟨m', hm', hm⟩ := h
      exact ⟨a, b, c, rest, m', rfl, hcond, hm', hm.symm⟩
    · cases h
  · cases h

theorem strictAtGen_extends {ext : List Char → Option (List Char)}
    {s m : List Char} (h : strictAtGen ext s = some m)
    (hsh : ∀ {l e : List Char}, ext l = some e → ∃ t, l = e ++ t) :
    ∃ t, s = m ++ t := by
  obtain ⟨a, b, c, rest, m', hs, _, hstar, hm⟩ := strictAtGen_shape h
  obtain ⟨u, etail, e, h1, h2, h3, h4⟩ := starThenExt_shape hstar
  obtain ⟨t, ht⟩ := hsh h4
  refine ⟨t, ?_⟩
  rw [hs, hm, h1, h2, ht]
  simp

theorem extAtCI_pre {l e : List Char} (h : extAtCI l = some e) :
    ∃ t, l = e ++ t := by
  obtain ⟨a, b, c, t, h1, h2, _⟩ := extAtCI_shape h
  exact ⟨t, by rw [h1, h2]; rfl⟩

theorem isWellFormedPath_build {a b c x y z : Char} {u : List Char}
    (ha : isAsciiLetter a = true) (hb : b = ':') (hc : c = '\\' ∨ c = '/')
    (hu : u.all clsChar = true) (hx : extTripleCI x y z = true) :
    isWellFormedPath (a :: b :: c :: (u ++ ['.', x, y, z])) = true := by
  have hlen : (u ++ ['.', x, y, z]).length - 4 = u.length := by
    simp
  have hred : isWellFormedPath (a :: b :: c :: (u ++ ['.', x, y, z])) =
      (isAsciiLetter a && decide (b = ':') &&
        (decide (c = '\\') || decide (c = '/')) &&
        decide (4 ≤ (u ++ ['.', x, y, z]).length) &&
        ((u ++ ['.', x, y, z]).take ((u ++ ['.', x, y, z]).length - 4)).all clsChar &&
        extFull ((u ++ ['.', x, y, z]).drop ((u ++ ['.', x, y, z]).length - 4))) := rfl
  have hcb : (decide (c = '\\') || decide (c = '/')) = true := by
    rcases hc with h | h <;> simp [h]
  rw [hred, hlen, List.take_left, List.drop_left]
  simp [ha, hb, hcb, hu, extFull, hx]

theorem isWellFormedPath_shape {p : List Char}
    (h : isWellFormedPath p = true) :
    ∃ a b c u x y z, p = a :: b :: c :: (u ++ ['.', x, y, z]) ∧
      isAsciiLetter a = true ∧ b = ':' ∧ (c = '\\' ∨ c = '/') ∧
      u.all clsChar = true ∧ extTripleCI x y z = true := by
  unfold isWellFormedPath at h
  split at h
  · rename_i a b c rest
    simp only [Bool.and_eq_true, Bool.or_eq_true, decide_eq_true_eq] at h
    obtain ⟨⟨⟨⟨⟨ha, hb⟩, hc⟩, hlen⟩, hall⟩, hext⟩ := h
    obtain ⟨x, y, z, he, htri⟩ := extFull_shape hext
    refine ⟨a, b, c, rest.take (rest.length - 4), x, y, z, ?_, ha, hb, hc, hall, htri⟩
    have hsplit : rest = rest.take (rest.length - 4) ++ ['.', x, y, z] := by
      conv_lhs => rw [← List.take_append_drop (rest.length - 4) rest]
      rw [he]
    conv_rhs => rw [← hsplit]
  · cases h

theorem strictAtGen_isSome_build {ext : List Char → Option (List Char)}
    {a b c : Char} {rest : List Char}
    (ha : isAsciiLetter a = true) (hb : b = ':')
    (hc : (decide (c = '\\') || decide (c = '/')) = true)
    (hstar : (starThenExt ext clsChar rest).isSome = true) :
    (strictAtGen ext (a :: b :: c :: rest)).isSome = true := by
  unfold strictAtGen
  cases hst : starThenExt ext clsChar rest with
  | none => rw [hst] at hstar; cases hstar
  | some m => simp [ha, hb, hc, hst]

theorem strictAtCI_isSome_of_wf {s : List Char} {n : ℕ}
    (h : isWellFormedPath (s.take n) = true) :
    (strictAtCI s).isSome = true := by
  obtain ⟨a, b, c, u, x, y, z, hp, ha, hb, hc, hu, hx⟩ := isWellFormedPath_shape h
  have hs : s = a :: b :: c :: (u ++ (['.', x, y, z] ++ s.drop n)) := by
    conv_lhs => rw [← List.take_append_drop n s]
    rw [hp]
    simp
  have hext : (extAtCI (['.', x, y, z] ++ s.drop n)).isSome = true := by
    rw [show (['.', x, y, z] ++ s.drop n) = '.' :: x :: y :: z :: s.drop n from rfl,
      extAtCI_of_triple _ hx]
    rfl
  have hstar : (starThenExt extAtCI clsChar
      (u ++ (['.', x, y, z] ++ s.drop n))).isSome = true :=
    starThenExt_append u _ hu hext
  have hcb : (decide (c = '\\') || decide (c = '/')) = true := by
    rcases hc with h' | h' <;> simp [h']
  rw [hs]
  exact strictAtGen_isSome_build ha hb hcb hstar

theorem isWellFormedPath_of_strictAtCI {s m : List Char}
    (h : strictAtCI s = some m) : isWellFormedPath m = true := by
  obtain ⟨a, b, c, rest, m', _, hcond, hstar, hm⟩ := strictAtGen_shape h
  obtain ⟨u, etail, e, _, h2, h3, h4⟩ := starThenExt_shape hstar
  obtain ⟨x, y, z, t, he1, he2, htri⟩ := extAtCI_shape h4
  simp only [Bool.and_eq_true, Bool.or_eq_true, decide_eq_true_eq] at hcond
  obtain ⟨⟨ha, hb⟩, hc⟩ := hcond
  rw [hm, h2, he2]
  exact isWellFormedPath_build ha hb hc h3 htri

theorem reSearch_isSome {f : List Char → Option (List Char)}
    (hnil : f [] = none) :
    ∀ (s : List Char) (i : ℕ) (m : List Char), f (s.drop i) = some m →
      (reSearch f s).isSome = true := by
  intro s
  induction s with
  | nil =>
    intro i m h
    rw [List.drop_nil] at h
    rw [hnil] at h
    cases h
  | cons c rest ih =>
    intro i m h
    cases i with
    | zero =>
      rw [List.drop_zero] at h
      unfold reSearch
      rw [h]
      rfl
    | succ j =>
      have hs := ih j m (by simpa using h)
      unfold reSearch
      cases hf : f (c :: rest) with
      | some m' => rfl
      | none => exact hs

theorem reSearch_shape {f : List Char → Option (List Char)} :
    ∀ {s m : List Char}, reSearch f s = some m → ∃ i, f (s.drop i) = some m := by
  intro s
  induction s with
  | nil => intro m h; cases h
  | cons c rest ih =>
    intro m h
    unfold reSearch at h
    cases hf : f (c :: rest) with
    | some m' =>
      rw [hf] at h
      simp at h
      exact ⟨0, by rw [List.drop_zero, hf, h]⟩
    | none =>
      rw [hf] at h
      simp at h
      obtain ⟨i, hi⟩ := ih h
      exact ⟨i + 1, by simpa using hi⟩

theorem reSearch_none_head {f : List Char → Option (List Char)}
    {c : Char} {rest : List Char} (h : reSearch f (c :: rest) = none) :
    f (c :: rest) = none ∧ reSearch f rest = none := by
  unfold reSearch at h
  cases hf : f (c :: rest) with
  | some m => rw [hf] at h; cases h
  | none => rw [hf] at h; exact ⟨rfl, h⟩

theorem subAllF_id_of_none {f : List Char → Option (List Char)} :
    ∀ (fuel : ℕ) (s : List Char), reSearch f s = none → subAllF f fuel s = s := by
  intro fuel
  induction fuel with
  | zero => intro s _; rfl
  | succ n ih =>
    intro s h
    cases s with
    | nil => rfl
    | cons c rest =>
      obtain ⟨h1, h2⟩ := reSearch_none_head h
      unfold subAllF
      rw [h1, ih rest h2]

theorem subAll_id_of_none {f : List Char → Option (List Char)}
    {s : List Char} (h : reSearch f s = none) : subAll f s = s :=
  subAllF_id_of_none s.length s h

/-!
Part 5: per-frame pixel accounting for the binarization tool.
-/

theorem binPix_cases (t : ℤ) (p : ℕ) : binPix t p = 255 ∨ binPix t p = 0 := by
  unfold binPix
  split
  · exact Or.inl rfl
  · exact Or.inr rfl

theorem row_partition (t : ℤ) (row : List ℕ) :
    (row.map (binPix t)).count 255 + (row.map (binPix t)).count 0 = row.length := by
  induction row with
  | nil => rfl
  | cons p r ih =>
    rcases binPix_cases t p with h | h <;>
      simp [List.count_cons, h] <;> omega

theorem frame_partition (t : ℤ) :
    ∀ (f : Frame) (w h : ℕ), f.length = h → (∀ r ∈ f, r.length = w) →
      whiteCount1 t f + blackCount1 t f = w * h := by
  intro f
  induction f with
  | nil =>
    intro w h hh _
    subst hh
    simp [whiteCount1, blackCount1, count2, binFrame, grayFrame]
  | cons r f' ih =>
    intro w h hh hw
    cases h with
    | zero => cases hh
    | succ h' =>
      have hh' : f'.length = h' := by simpa using hh
      have hw' : ∀ r' ∈ f', r'.length = w := fun r' hr' => hw r' (List.mem_cons_of_mem _ hr')
      have hr : r.length = w := hw r (List.mem_cons_self _ _)
      have ihh := ih w h' hh' hw'
      have hthisW : whiteCount1 t (r :: f') =
          ((r.map grayPix).map (binPix t)).count 255 + whiteCount1 t f' := by
        simp [whiteCount1, count2, binFrame, grayFrame]
      have hthisB : blackCount1 t (r :: f') =
          ((r.map grayPix).map (binPix t)).count 0 + blackCount1 t f' := by
        simp [blackCount1, count2, binFrame, grayFrame]
      have hlen : ((r.map grayPix).map (binPix t)).count 255 +
          ((r.map grayPix).map (binPix t)).count 0 = w := by
        rw [row_partition]
        simpa using hr
      rw [hthisW, hthisB, Nat.mul_succ]
      omega

/-!
Part 6: the claims.  Each claim of the frozen list gets exactly one
theorem (with a witness when it has hypotheses, and a counterexample when
the claim as stated fails on the code).
-/

/-- A video whose capture cannot be opened. -/
def vClosed : Video := ⟨false, 0, 0, 0, 0, []⟩

/-- An openable video whose reported fps is 0 (metadata-damaged files do
report this). -/
def vZeroFps : Video := ⟨true, 0, 300, 640, 480, []⟩

/-- A small openable video: 30 fps, one 2×2 frame. -/
def frameA : Frame := [[(0, 0, 0), (255, 255, 255)], [(10, 20, 30), (200, 200, 200)]]

/-- A small openable video holding `frameA`. -/
def vA : Video := ⟨true, 30, 1, 2, 2, [frameA]⟩

/-- Claim C2, counterexample: the claim says both operations release the
capture handle on every exit path of every invocation, including any
exception raised during processing.  On an openable video with fps 0 the
`ZeroDivisionError` from `duration = frame_count / fps` is raised before
the `try/finally` is entered, and neither operation executes
`cap.release()`. -/
theorem C2_counterexample :
    (inference_video vZeroFps).released = false ∧
    (process_video_binarization vZeroFps 127).released = false :=
  ⟨rfl, rfl⟩

/-- Claim C2 (amended): both Tool Host operations release the video
capture handle on every exit path that reaches the frame-read loop —
read-failure termination and in-loop exceptions are inside the
`try/finally` — i.e. on every invocation on an openable video with
nonzero reported fps.  The zero-fps `ZeroDivisionError` (and the
failed-open early return, where no opened handle exists) exit without
calling release. -/
theorem C2_release_on_loop_paths (v : Video) (t : ℤ)
    (ho : v.openable = true) (hf : v.fps ≠ 0) :
    (inference_video v).released = true ∧
    (process_video_binarization v t).released = true := by
  constructor <;>
    simp [inference_video, video_inference_model, process_video_binarization,
      video_binarization, ho, hf]

/-- Witness for C2 (amended) at a concrete openable 30-fps video. -/
theorem C2_witness :
    vA.openable = true ∧ vA.fps ≠ 0 ∧
    (inference_video vA).released = true ∧
    (process_video_binarization vA 127).released = true := by
  have h := C2_release_on_loop_paths vA 127 rfl (by norm_num [vA])
  exact ⟨rfl, by norm_num [vA], h.1, h.2⟩

/-- Claim C3: the claim (flagged by the spec as required hardening) says
inference on an openable zero-fps file must not raise and must produce a
sentinel duration.  The code instead raises `ZeroDivisionError` at
`duration = frame_count / fps` (server.py line 48): evaluating the
embedded operation at such a file yields the raised exception, not a
payload. -/
theorem C3_zero_fps_raises :
    (inference_video vZeroFps).result = Except.error PyErr.zeroDivision ∧
    (inference_video vZeroFps).released = false :=
  ⟨rfl, rfl⟩

/-- Claim C6: for every frame processed by the binarize operation with any
threshold in [0,255], the recorded white-pixel count plus the recorded
black-pixel count equals the frame's width times its height: the
`THRESH_BINARY` output is 255 or 0 at every pixel, so the two counts
partition the frame. -/
theorem C6_pixel_partition (v : Video) (t : ℤ)
    (_ht0 : 0 ≤ t) (_ht1 : t ≤ 255) (i : ℕ) (f : Frame) (w h : ℕ)
    (hf : v.frames[i]? = some f)
    (hh : f.length = h) (hw : ∀ r ∈ f, r.length = w) :
    (whiteCounts v t)[i]? = some (whiteCount1 t f) ∧
    (blackCounts v t)[i]? = some (blackCount1 t f) ∧
    whiteCount1 t f + blackCount1 t f = w * h := by
  refine ⟨?_, ?_, frame_partition t f w h hh hw⟩ <;>
    simp [whiteCounts, blackCounts, List.getElem?_map, hf]

/-- Witness for C6 at threshold 127 on a concrete 2×2 frame. -/
theorem C6_witness :
    (0 : ℤ) ≤ 127 ∧ (127 : ℤ) ≤ 255 ∧
    vA.frames[0]? = some frameA ∧ frameA.length = 2 ∧
    (∀ r ∈ frameA, r.length = 2) ∧
    ((whiteCounts vA 127)[0]? = some (whiteCount1 127 frameA) ∧
     (blackCounts vA 127)[0]? = some (blackCount1 127 frameA) ∧
     whiteCount1 127 frameA + blackCount1 127 frameA = 2 * 2) :=
  ⟨by decide, by decide, rfl, rfl, by decide,
    C6_pixel_partition vA 127 (by decide) (by decide) 0 frameA 2 2 rfl rfl (by decide)⟩

/-- Claim C7: for every path the Tool Host cannot open, both operations
return (`Except.ok`, i.e. without raising) the structured payload whose
mapping contains the `"error"` key. -/
theorem C7_open_error_payload (v : Video) (t : ℤ) (h : v.openable = false) :
    (inference_video v).result = Except.ok openErrorPayload ∧
    (process_video_binarization v t).result = Except.ok openErrorPayload ∧
    hasKey openErrorPayload "error" = true := by
  refine ⟨?_, ?_, rfl⟩ <;>
    simp [inference_video, video_inference_model, process_video_binarization,
      video_binarization, h]

/-- Witness for C7 at a concrete unopenable video. -/
theorem C7_witness :
    vClosed.openable = false ∧
    (inference_video vClosed).result = Except.ok openErrorPayload ∧
    (process_video_binarization vClosed 127).result = Except.ok openErrorPayload ∧
    hasKey openErrorPayload "error" = true :=
  ⟨rfl, (C7_open_error_payload vClosed 127 rfl).1,
    (C7_open_error_payload vClosed 127 rfl).2.1,
    (C7_open_error_payload vClosed 127 rfl).2.2⟩

/-- Claim C10: on every successful binarize result the three per-frame
statistics lists have the same length, equal to the number of frames
actually read from the video. -/
theorem C10_stat_lengths (v : Video) (t : ℤ)
    (ho : v.openable = true) (hf : v.fps ≠ 0) :
    (video_binarization v t).result = Except.ok (binSuccessPayload v t) ∧
    (whiteCounts v t).length = v.frames.length ∧
    (blackCounts v t).length = v.frames.length ∧
    (brightnessList v).length = v.frames.length := by
  refine ⟨?_, by simp [whiteCounts], by simp [blackCounts], by simp [brightnessList]⟩
  simp [video_binarization, ho, hf]

/-- Witness for C10 at a concrete openable 30-fps video. -/
theorem C10_witness :
    vA.openable = true ∧ vA.fps ≠ 0 ∧
    (video_binarization vA 127).result = Except.ok (binSuccessPayload vA 127) ∧
    (whiteCounts vA 127).length = vA.frames.length ∧
    (blackCounts vA 127).length = vA.frames.length ∧
    (brightnessList vA).length = vA.frames.length := by
  have h := C10_stat_lengths vA 127 rfl (by norm_num [vA])
  exact ⟨rfl, by norm_num [vA], h.1, h.2.1, h.2.2.1, h.2.2.2⟩

/-- Claim C4, counterexample.  The claim says (a) a query containing a
well-formed drive-letter video path yields exactly that path substring and
(b) a query containing no such path yields `None`.  Both parts fail on the
code: the query `"a:\<.mp4"` contains no well-formed path (`<` is excluded
by the strict class) yet the fallback pattern matches and the whole string
is returned; and the query `"C:\a.mp4 b.mp4"` contains the well-formed
path `"C:\a.mp4"` yet the greedy strict star extends the match to
`"C:\a.mp4 b.mp4"`. -/
theorem C4_counterexample :
    (containsWF ("a:\\<.mp4".toList) = false ∧
      extract_video_path "a:\\<.mp4" = some "a:\\<.mp4") ∧
    (isWellFormedPath ("C:\\a.mp4".toList) = true ∧
      containsWF ("C:\\a.mp4 b.mp4".toList) = true ∧
      extract_video_path "C:\\a.mp4 b.mp4" = some "C:\\a.mp4 b.mp4") :=
  ⟨⟨by decide, by decide⟩, ⟨by decide, by decide, by decide⟩⟩

/-- Claim C4 (amended): `extract_video_path` tries the strict pattern
first and the fallback only when the strict search fails (the `None`
characterization below); when the query contains a well-formed
drive-letter video path, the result is `some` well-formed path occurring
in the query — the leftmost greedy strict match, which may extend beyond a
given contained path; the result is `None` exactly when neither pattern
matches anywhere, and the fallback can match substrings that are not
well-formed paths, so a query without a well-formed path may still yield a
non-null result.  No input raises. -/
theorem C4_path_extraction (q : String) :
    (containsWF q.toList = true →
      ∃ p : String, extract_video_path q = some p ∧
        isWellFormedPath p.toList = true ∧
        ∃ i t, q.toList.drop i = p.toList ++ t) ∧
    (extract_video_path q = none ↔
      reSearch strictAtCI q.toList = none ∧ reSearch simpleAt q.toList = none) := by
  constructor
  · intro hcf
    obtain ⟨i, n, hwf⟩ := containsWF_exists hcf
    have hsome : (strictAtCI (q.toList.drop i)).isSome = true :=
      strictAtCI_isSome_of_wf hwf
    obtain ⟨mi, hmi⟩ := Option.isSome_iff_exists.mp hsome
    have hres : (reSearch strictAtCI q.toList).isSome = true :=
      reSearch_isSome rfl q.toList i mi hmi
    obtain ⟨m, hm⟩ := Option.isSome_iff_exists.mp hres
    refine ⟨String.mk m, ?_, ?_, ?_⟩
    · unfold extract_video_path
      rw [hm]
    · obtain ⟨j, hj⟩ := reSearch_shape hm
      exact isWellFormedPath_of_strictAtCI hj
    · obtain ⟨j, hj⟩ := reSearch_shape hm
      obtain ⟨t, ht⟩ := strictAtGen_extends hj (fun h => extAtCI_pre h)
      exact ⟨j, t, ht⟩
  · unfold extract_video_path
    cases h1 : reSearch strictAtCI q.toList with
    | some m => simp [h1]
    | none =>
      cases h2 : reSearch simpleAt q.toList with
      | some m => simp [h1, h2]
      | none => simp [h1, h2]

/-- Witness for C4 (amended): a concrete query containing a well-formed
path. -/
theorem C4_witness :
    containsWF ("see D:\\v.mp4".toList) = true ∧
    (∃ p : String, extract_video_path "see D:\\v.mp4" = some p ∧
      isWellFormedPath p.toList = true ∧
      ∃ i t, ("see D:\\v.mp4".toList).drop i = p.toList ++ t) ∧
    (extract_video_path "nope" = none ↔
      reSearch strictAtCI "nope".toList = none ∧
      reSearch simpleAt "nope".toList = none) :=
  ⟨by decide, (C4_path_extraction "see D:\\v.mp4").1 (by decide),
    (C4_path_extraction "nope").2⟩

/-- Claim C5, counterexample.  The claim says `extract_text_question`
removes the matched video-path substring — the one `extract_video_path`
returns, matched case-insensitively on the extension — from the query.
On `"C:\a.MP4 hello"`, `extract_video_path` matches `"C:\a.MP4"`
(IGNORECASE), but the question extraction removes nothing: the IGNORECASE
substitution on line 76 is overwritten by the case-sensitive one on line
79, which does not match the uppercase extension, so the path remains in
the returned question. -/
theorem C5_counterexample :
    extract_video_path "C:\\a.MP4 hello" = some "C:\\a.MP4" ∧
    extract_text_question "C:\\a.MP4 hello" = "C:\\a.MP4 hello" :=
  ⟨by decide, by decide⟩

/-- Claim C5 (amended): `extract_text_question` removes only the
case-sensitive strict-pattern matches (the IGNORECASE substitution is
computed and immediately discarded; fallback-only and uppercase-extension
matches are not removed), strips the remainder, and returns the fixed
default question when nothing remains.  In particular, when the
case-sensitive strict pattern occurs nowhere in the query the result is
the stripped query itself (or the default question when that is empty),
and the result is never the empty string. -/
theorem C5_question_extraction (q : String) :
    (reSearch strictAtCS q.toList = none →
      extract_text_question q =
        (if (pyStrip q.toList).isEmpty then defaultQuestion
         else String.mk (pyStrip q.toList))) ∧
    extract_text_question q ≠ "" := by
  constructor
  · intro h
    unfold extract_text_question
    rw [subAll_id_of_none h]
  · unfold extract_text_question
    cases he : (pyStrip (subAll strictAtCS q.toList)).isEmpty with
    | true =>
      simp only [List.isEmpty_iff] at he
      simp only [he]
      simp [defaultQuestion]
    | false =>
      simp only [he, Bool.false_eq_true, if_false]
      intro hc
      have hdata := congrArg String.data hc
      simp only [String.data] at hdata
      rw [hdata] at he
      simp at he

theorem genericTail_calls (env : Env) (tc : ToolCallMsg) (toolArgs : JObj)
    (messages : List Msg) (calls : List (String × JObj)) (msgs0 : List Msg) :
    (genericTail env tc toolArgs messages calls msgs0).calls =
      calls ++ [(tc.name, toolArgs)] := by
  simp only [genericTail]
  cases hx : (env.callTool tc.name toolArgs).content <;> simp [hx]

theorem process_query_fresh (env : Env) (q : String) :
    (process_query env q).firstGatewayMessages = [Msg.user q] := by
  simp only [process_query, genericTail]
  repeat' split
  all_goals rfl

theorem process_query_parse_error (env : Env) (q : String) (tc : ToolCallMsg)
    (e : PyErr) (hc : env.choice = Choice.toolCalls tc)
    (hj : env.jsonLoads tc.arguments = Except.error e) :
    process_query env q = ⟨Except.error e, [], false, [Msg.user q]⟩ := by
  simp only [process_query, hc, hj]

/-- The gateway decision used by the concrete environments: the model
selects `inference_video` with the empty JSON argument object. -/
def tcInference : ToolCallMsg := ⟨"call_1", "inference_video", "{}"⟩

/-- A concrete `json.loads`: the empty object parses, anything else
raises. -/
def jsonOracle : String → Except PyErr JObj := fun s =>
  if s = "{}" then Except.ok [] else Except.error (PyErr.jsonDecode s)

/-- A concrete environment where the model selects `inference_video` with
well-formed (empty) arguments and every external call succeeds. -/
def envInf : Env :=
  { choice := Choice.toolCalls tcInference
    jsonLoads := jsonOracle
    callTool := fun _ _ => ⟨["{}"]⟩
    readFile := fun _ => Except.ok "BYTES"
    b64encode := fun s => s
    secondAnswer := fun _ => "final answer" }

/-- A concrete environment where the model's tool-call arguments are
malformed JSON. -/
def envBadArgs : Env :=
  { choice := Choice.toolCalls ⟨"call_1", "inference_video", "oops"⟩
    jsonLoads := jsonOracle
    callTool := fun _ _ => ⟨["{}"]⟩
    readFile := fun _ => Except.ok "BYTES"
    b64encode := fun s => s
    secondAnswer := fun _ => "final answer" }

/-- Claim C1, counterexample: the claim says a query on which the model
selects a tool causes exactly one Tool Host invocation, and never more
than one.  On a query selecting `inference_video` with an extractable
path, `process_query` invokes the Tool Host twice before its second
gateway call: the hard-coded path-resolved call (client.py line 122) and
the unconditional generic replay with the model-supplied arguments
(line 160). -/
theorem C1_counterexample :
    (process_query envInf "play C:\\a.mp4").calls =
      [("inference_video", [("path", JVal.jstr "C:\\a.mp4")]),
       ("inference_video", [])] ∧
    (process_query envInf "play C:\\a.mp4").secondGatewayCalled = true :=
  ⟨rfl, rfl⟩

/-- Claim C1 (amended): when the model selects a tool, `process_query`
resolves the tool-call decision into Tool Host invocations before its
second gateway call as follows — a selected tool named anything other than
the two known tools gets exactly one invocation (the generic replay with
the model-supplied arguments); a selected `inference_video` or
`process_video_binarization` whose argument resolution, file encoding and
result parsing succeed gets exactly two: first the hard-coded call with
the re-extracted path (plus the model-supplied or default threshold for
binarization), then the generic replay. -/
theorem C1_tool_call_count (env : Env) (q : String) (tc : ToolCallMsg)
    (toolArgs : JObj) (vp dat t bt : String) (ts bts : List String)
    (vparams : JObj)
    (hc : env.choice = Choice.toolCalls tc)
    (hj : env.jsonLoads tc.arguments = Except.ok toolArgs) :
    ((tc.name ≠ "inference_video" ∧ tc.name ≠ "process_video_binarization") →
      (process_query env q).calls = [(tc.name, toolArgs)]) ∧
    ((tc.name = "inference_video" ∧ extract_video_path q = some vp ∧
      env.readFile vp = Except.ok dat ∧
      env.callTool "inference_video" [("path", JVal.jstr vp)] = ⟨t :: ts⟩ ∧
      env.jsonLoads t = Except.ok vparams) →
      (process_query env q).calls =
        [("inference_video", [("path", JVal.jstr vp)]), (tc.name, toolArgs)]) ∧
    ((tc.name = "process_video_binarization" ∧ extract_video_path q = some vp ∧
      env.readFile vp = Except.ok dat ∧
      env.callTool "process_video_binarization"
        [("path", JVal.jstr vp),
         ("threshold", jget toolArgs "threshold" (JVal.jnum 127))] = ⟨bt :: bts⟩ ∧
      env.jsonLoads bt = Except.ok vparams) →
      (process_query env q).calls =
        [("process_video_binarization",
          [("path", JVal.jstr vp),
           ("threshold", jget toolArgs "threshold" (JVal.jnum 127))]),
         (tc.name, toolArgs)]) := by
  refine ⟨?_, ?_, ?_⟩
  · rintro ⟨h1, h2⟩
    simp only [process_query, hc, hj, h1, h2, if_false, genericTail_calls]
    simp
  · rintro ⟨hn, hp, hr, hct, hpar⟩
    simp only [process_query, hc, hj, hn, eq_self_iff_true, if_true, hp,
      encode_image, hr, Except.map, hct, hpar, genericTail_calls]
    simp [hn]
  · rintro ⟨hn, hp, hr, hct, hpar⟩
    have hne : ¬ ("process_video_binarization" : String) = "inference_video" := by
      decide
    simp only [process_query, hc, hj, hn, hne, eq_self_iff_true, if_true,
      if_false, hp, encode_image, hr, Except.map, hct, hpar, genericTail_calls]
    simp [hn]

/-- Witness for C1 (amended): the concrete environment and query of the
counterexample, satisfying the two-call branch. -/
theorem C1_witness :
    envInf.choice = Choice.toolCalls tcInference ∧
    envInf.jsonLoads "{}" = Except.ok [] ∧
    (process_query envInf "play C:\\a.mp4").calls =
      [("inference_video", [("path", JVal.jstr "C:\\a.mp4")]),
       ("inference_video", [])] :=
  ⟨rfl, rfl,
    (C1_tool_call_count envInf "play C:\\a.mp4" tcInference [] "C:\\a.mp4"
        "BYTES" "{}" "{}" [] [] [] rfl rfl).2.1
      ⟨rfl, by decide, rfl, rfl, rfl⟩⟩

/-- Claim C8, counterexample: the claim says that when a video tool is
selected but no path is extractable, the null path is propagated into the
Tool Host invocation, which then fails with the `OpenError` payload.  In
fact `encode_image(None)` raises a `TypeError` (from `open(None, "rb")`)
before any `call_tool` happens: the cycle fails with an empty invocation
list, so no Tool Host call is ever made for such a query. -/
theorem C8_counterexample :
    process_query envInf "describe the video" =
      ⟨Except.error PyErr.typeErrorNonePath, [], false,
        [Msg.user "describe the video"]⟩ ∧
    (process_query envInf "describe the video").calls = [] :=
  ⟨rfl, rfl⟩

/-- Claim C8 (amended): when a video tool is selected with well-formed
arguments but `extract_video_path` returns the null path, `process_query`
raises the `TypeError` from `encode_image` opening the `None` path before
any Tool Host invocation: it returns that exception to the interactive
loop with no tool call made and no second gateway call. -/
theorem C8_null_path_behavior (env : Env) (q : String) (tc : ToolCallMsg)
    (toolArgs : JObj)
    (hc : env.choice = Choice.toolCalls tc)
    (hj : env.jsonLoads tc.arguments = Except.ok toolArgs)
    (hn : tc.name = "inference_video" ∨ tc.name = "process_video_binarization")
    (hp : extract_video_path q = none) :
    process_query env q =
      ⟨Except.error PyErr.typeErrorNonePath, [], false, [Msg.user q]⟩ := by
  rcases hn with hn | hn
  · simp only [process_query, hc, hj, hn, eq_self_iff_true, if_true, hp]
  · have hne : ¬ ("process_video_binarization" : String) = "inference_video" := by
      decide
    simp only [process_query, hc, hj, hn, hne, eq_self_iff_true, if_true,
      if_false, hp]

/-- Witness for C8 (amended) at a concrete environment and path-free
query. -/
theorem C8_witness :
    envInf.choice = Choice.toolCalls tcInference ∧
    envInf.jsonLoads "{}" = Except.ok [] ∧
    tcInference.name = "inference_video" ∧
    extract_video_path "describe the video" = none ∧
    process_query envInf "describe the video" =
      ⟨Except.error PyErr.typeErrorNonePath, [], false,
        [Msg.user "describe the video"]⟩ :=
  ⟨rfl, rfl, rfl, by decide,
    C8_null_path_behavior envInf "describe the video" tcInference []
      rfl rfl (Or.inl rfl) (by decide)⟩

/-- Claim C9: a malformed tool-call argument payload makes `json.loads`
raise; the exception escapes `process_query` before any tool call, is
caught at the top of the interactive loop and reported as one diagnostic
line for that query only; the loop continues, and every query's
conversation is rebuilt from scratch containing only its own user turn
(`process_query` passes exactly `[user q]` to the first gateway call), so
no partial state is carried forward and no retry occurs. -/
theorem C9_malformed_arguments (env : Env) (raw : String) (tc : ToolCallMsg)
    (e : PyErr) (rest : List (Env × String)) (env2 : Env) (q2 : String)
    (hc : env.choice = Choice.toolCalls tc)
    (hj : env.jsonLoads tc.arguments = Except.error e)
    (hq : pyLower (String.mk (pyStrip raw.toList)) ≠ "quit") :
    process_query env (String.mk (pyStrip raw.toList)) =
      ⟨Except.error e, [], false,
        [Msg.user (String.mk (pyStrip raw.toList))]⟩ ∧
    chat_loop ((env, raw) :: rest) =
      ("⚠️ 发生错误: " ++ errStr e) :: chat_loop rest ∧
    (process_query env2 q2).firstGatewayMessages = [Msg.user q2] := by
  have hpq := process_query_parse_error env (String.mk (pyStrip raw.toList)) tc e hc hj
  refine ⟨hpq, ?_, process_query_fresh env2 q2⟩
  simp only [chat_loop]
  rw [if_neg hq]
  simp only [reportLine, hpq]

/-- Witness for C9 at a concrete malformed-arguments environment. -/
theorem C9_witness :
    envBadArgs.choice = Choice.toolCalls ⟨"call_1", "inference_video", "oops"⟩ ∧
    envBadArgs.jsonLoads "oops" = Except.error (PyErr.jsonDecode "oops") ∧
    pyLower (String.mk (pyStrip " hi ".toList)) ≠ "quit" ∧
    process_query envBadArgs (String.mk (pyStrip " hi ".toList)) =
      ⟨Except.error (PyErr.jsonDecode "oops"), [], false,
        [Msg.user (String.mk (pyStrip " hi ".toList))]⟩ ∧
    chat_loop [(envBadArgs, " hi ")] =
      [("⚠️ 发生错误: " ++ errStr (PyErr.jsonDecode "oops"))] ∧
    (process_query envInf "next").firstGatewayMessages = [Msg.user "next"] := by
  have h := C9_malformed_arguments envBadArgs " hi "
    ⟨"call_1", "inference_video", "oops"⟩ (PyErr.jsonDecode "oops") [] envInf
    "next" rfl rfl (by decide)
  exact ⟨rfl, rfl, by decide, h.1, by rw [h.2.1]; rfl, h.2.2⟩

/-- Witness for C5 (amended) at a concrete path-free query. -/
theorem C5_witness :
    reSearch strictAtCS ("hello".toList) = none ∧
    extract_text_question "hello" = "hello" ∧
    extract_text_question "hello" ≠ "" := by
  refine ⟨by decide, ?_, (C5_question_extraction "hello").2⟩
  have h := (C5_question_extraction "hello").1 (by decide)
  rw [h]
  decide

end ZyMcp
